import Mathlib

/-!
# Verification of the artwork-data-table selection engine

Shallow embedding of `src/src/utils/index.ts` (`SelectionManager`) and the
selection configuration from the application constants file
(`SELECTION_CONFIG`).  Identifiers and page numbers are JavaScript numbers
used as integers; they are modelled as `Int`.  JavaScript `Set<number>` is
modelled as `Finset Int` (membership-only observations), and
`Map<number, Set<number>>` as an association list `List (Int × Finset Int)`
with unique keys.  `Map.set` / `Map.delete` / `Map.get` are modelled by
`mapInsert` / `mapErase` / `mapLookup`; a `Map`'s insertion order is not
observable by any property proved below, so `mapInsert` places the updated
entry at the front.
-/

namespace ArtworkSelection

/-- `SELECTION_CONFIG.MAX_BULK_SELECTION` from the constants file. -/
def MAX_BULK_SELECTION : Int := 1000

/-- `SELECTION_CONFIG.STORAGE_EXPIRY_HOURS` from the constants file. -/
def STORAGE_EXPIRY_HOURS : Int := 24

/-- `const expiryTime = SELECTION_CONFIG.STORAGE_EXPIRY_HOURS * 60 * 60 * 1000`
(in `loadFromStorage`). -/
def expiryTime : Int := STORAGE_EXPIRY_HOURS * 60 * 60 * 1000

/-- The `lastBulkSelection` metadata record `{count, startPage, timestamp}`. -/
structure BulkMeta where
  count : Int
  startPage : Int
  timestamp : Int
deriving DecidableEq

/-- Association-list lookup, modelling `Map.get` (`none` ↔ `undefined`). -/
def mapLookup (m : List (Int × Finset Int)) (k : Int) : Option (Finset Int) :=
  (m.find? (fun e => e.1 = k)).map Prod.snd

/-- Modelling `Map.delete k`: every entry with key `k` is removed. -/
def mapErase (m : List (Int × Finset Int)) (k : Int) : List (Int × Finset Int) :=
  m.filter (fun e => ¬ e.1 = k)

/-- Modelling `Map.set k v`: the entry for `k` is replaced by `(k, v)`
(inserted at the front; entry order is unobservable here). -/
def mapInsert (m : List (Int × Finset Int)) (k : Int) (v : Finset Int) :
    List (Int × Finset Int) :=
  (k, v) :: mapErase m k

/-- `SelectionManagerState` from `src/src/types/index.ts`. -/
@[ext]
structure SelectionManagerState where
  selectedIds : Finset Int
  pageSelections : List (Int × Finset Int)
  totalSelected : Int
  lastBulkSelection : Option BulkMeta
deriving DecidableEq

/-- The state built by the `SelectionManager` constructor before
`loadFromStorage` runs: empty sets and count `0`. -/
def initialState : SelectionManagerState :=
  { selectedIds := ∅, pageSelections := [], totalSelected := 0,
    lastBulkSelection := none }

/-- `updateTotalSelected`: `totalSelected = selectedIds.size`. -/
def updateTotalSelected (s : SelectionManagerState) : SelectionManagerState :=
  { s with totalSelected := (s.selectedIds.card : Int) }

/-- `selectRow(pageNumber, rowId)`: add to the global set and to the page's
set (creating the page entry when absent), then recompute the total. -/
def selectRow (pageNumber rowId : Int) (s : SelectionManagerState) :
    SelectionManagerState :=
  let pageSet := (mapLookup s.pageSelections pageNumber).getD ∅
  updateTotalSelected
    { s with
      selectedIds := insert rowId s.selectedIds
      pageSelections := mapInsert s.pageSelections pageNumber (insert rowId pageSet) }

/-- `deselectRow(pageNumber, rowId)`: remove from the global set and from the
page's set; delete the page entry when its set becomes empty. -/
def deselectRow (pageNumber rowId : Int) (s : SelectionManagerState) :
    SelectionManagerState :=
  let ps :=
    match mapLookup s.pageSelections pageNumber with
    | none => s.pageSelections
    | some pageSet =>
        let pageSet' := pageSet.erase rowId
        if pageSet'.card = 0 then mapErase s.pageSelections pageNumber
        else mapInsert s.pageSelections pageNumber pageSet'
  updateTotalSelected
    { s with selectedIds := s.selectedIds.erase rowId, pageSelections := ps }

/-- `selectAllOnPage(pageNumber, rowIds)`: add every id to the global set
(`rowIds.forEach(id => selectedIds.add(id))`) and replace the page's entry
wholesale with `new Set(rowIds)`. -/
def selectAllOnPage (pageNumber : Int) (rowIds : List Int)
    (s : SelectionManagerState) : SelectionManagerState :=
  updateTotalSelected
    { s with
      selectedIds := rowIds.foldl (fun acc id => insert id acc) s.selectedIds
      pageSelections := mapInsert s.pageSelections pageNumber rowIds.toFinset }

/-- `deselectAllOnPage(pageNumber)`: remove the page's ids from the global
set and drop the page entry. -/
def deselectAllOnPage (pageNumber : Int) (s : SelectionManagerState) :
    SelectionManagerState :=
  match mapLookup s.pageSelections pageNumber with
  | none => updateTotalSelected s
  | some pageSet =>
      updateTotalSelected
        { s with
          selectedIds := s.selectedIds \ pageSet
          pageSelections := mapErase s.pageSelections pageNumber }

/-- `clearAllSelections()`. -/
def clearAllSelections (_s : SelectionManagerState) : SelectionManagerState :=
  { selectedIds := ∅, pageSelections := [], totalSelected := 0,
    lastBulkSelection := none }

/-- `getPageSelections(pageNumber)`: the page's set or `new Set()`. -/
def getPageSelections (pageNumber : Int) (s : SelectionManagerState) : Finset Int :=
  (mapLookup s.pageSelections pageNumber).getD ∅

/-- `isRowSelected(rowId)`: membership test against `selectedIds`. -/
def isRowSelected (rowId : Int) (s : SelectionManagerState) : Bool :=
  decide (rowId ∈ s.selectedIds)

/-- `getTotalSelected()`. -/
def getTotalSelected (s : SelectionManagerState) : Int :=
  s.totalSelected

/-- Outcome of one `getPageData(page)` call: the resolved id array, or a
rejected promise (`err`). -/
inductive FetchResult where
  | ok (ids : List Int)
  | err
deriving DecidableEq

/-- The `getPageData` collaborator of `bulkSelect`. -/
abbrev Fetcher := Int → FetchResult

/-- Result of a bulk-selection run.  `fetches` counts the `getPageData`
calls performed; `caughtError` records whether the `catch` branch ran
(`console.error` and `break` — the error is not re-thrown). -/
structure BulkRun where
  state : SelectionManagerState
  fetches : Nat
  caughtError : Bool
deriving DecidableEq

/-- The `while (remainingCount > 0)` loop of `performBulkSelection`.
Each non-breaking iteration selects `pageIds.slice(0, remainingCount)`
(non-empty), so `remaining` strictly decreases. -/
def bulkLoop (getPageData : Fetcher) (remaining : Nat) (currentPage : Int)
    (s : SelectionManagerState) (fetches : Nat) : BulkRun :=
  if h : remaining = 0 then ⟨s, fetches, false⟩
  else
    match getPageData currentPage with
    | .err => ⟨s, fetches + 1, true⟩
    | .ok pageIds =>
        if hp : pageIds = [] then ⟨s, fetches + 1, false⟩
        else
          let idsToSelect := pageIds.take remaining
          let s' := selectAllOnPage currentPage idsToSelect s
          let remaining' := remaining - idsToSelect.length
          if currentPage + 1 > 1000 then ⟨s', fetches + 1, false⟩
          else bulkLoop getPageData remaining' (currentPage + 1) s' (fetches + 1)
termination_by remaining
decreasing_by
  have h1 : 0 < remaining := Nat.pos_of_ne_zero h
  have h2 : 0 < pageIds.length := List.length_pos.mpr hp
  have h3 : 0 < (pageIds.take remaining).length := by
    rw [List.length_take]
    exact lt_min h1 h2
  omega

/-- `performBulkSelection(startPage, count, getPageData)`: record
`lastBulkSelection = {count, startPage, timestamp}` first, then run the
fetch loop.  (`saveToStorage` at the end is modelled by `saveData` below.)
`now` stands for `Date.now()`. -/
def performBulkSelection (getPageData : Fetcher) (now : Int)
    (startPage count : Int) (s : SelectionManagerState) : BulkRun :=
  let s0 := { s with lastBulkSelection := some ⟨count, startPage, now⟩ }
  bulkLoop getPageData count.toNat startPage s0 0

/-- `bulkSelect(startPage, count, getPageData)`: the synchronous guard
throws for `count <= 0 || count > SELECTION_CONFIG.MAX_BULK_SELECTION`
before any state is touched or any page fetched. -/
def bulkSelect (getPageData : Fetcher) (now : Int) (startPage count : Int)
    (s : SelectionManagerState) : Except String BulkRun :=
  if count ≤ 0 ∨ count > MAX_BULK_SELECTION then
    .error ("Invalid bulk selection count: " ++ toString count)
  else
    .ok (performBulkSelection getPageData now startPage count s)

/-- `StoredSelectionData` from `src/src/types/index.ts`: the persisted JSON
record.  Note it has no `lastBulkSelection` field. -/
structure StoredSelectionData where
  selectedIds : List Int
  pageSelections : List (Int × List Int)
  totalSelected : Int
  timestamp : Int
deriving DecidableEq

/-- `saveToStorage` serialization: sets become arrays (`Array.from`), the
page map becomes a page → id-array record, plus `timestamp = Date.now()`.
`Array.from`'s insertion order is not observable through `Set`/`Finset`, so
the canonical sorted listing is used.  Object keys are written as decimal
strings and read back with `parseInt`, which is the identity on integer
pages, so keys stay `Int` here. -/
def saveData (s : SelectionManagerState) (now : Int) : StoredSelectionData :=
  { selectedIds := s.selectedIds.sort (· ≤ ·)
    pageSelections := s.pageSelections.map (fun e => (e.1, e.2.sort (· ≤ ·)))
    totalSelected := s.totalSelected
    timestamp := now }

/-- What `localStorage.getItem(storageKey)` can hold, as observed by
`loadFromStorage`:
* `absent` — `getItem` returned `null`;
* `emptyString` — the entry is `""`; it is falsy, so `if (!stored) return`
  treats it like `null` (without removing it) although `JSON.parse("")`
  would throw;
* `unparsable` — a string on which `JSON.parse` throws
  (e.g. `"not json"`);
* `badPageSelections ids ts` — a string that parses but is not a valid
  `StoredSelectionData`, e.g.
  `{"timestamp": ts, "selectedIds": ids, "pageSelections": null}`:
  the expiry check and the `selectedIds` assignment succeed, then
  `Object.entries(null)` throws a `TypeError`;
* `record d` — a valid `StoredSelectionData` record. -/
inductive StoredContent where
  | absent
  | emptyString
  | unparsable
  | badPageSelections (ids : List Int) (ts : Int)
  | record (d : StoredSelectionData)
deriving DecidableEq

/-- Result of `loadFromStorage`: the resulting in-memory state, and whether
`localStorage.removeItem(storageKey)` ran. -/
structure LoadResult where
  state : SelectionManagerState
  removedEntry : Bool
deriving DecidableEq

/-- `loadFromStorage()`, run against storage content `stored` at time `now`
(`Date.now()`), starting from in-memory state `s` (the constructor calls it
with the fresh empty state).  Any exception inside the `try` is caught:
the catch branch logs and removes the entry, keeping whatever fields were
already assigned. -/
def loadFromStorage (s : SelectionManagerState) (stored : StoredContent)
    (now : Int) : LoadResult :=
  match stored with
  | .absent => ⟨s, false⟩
  | .emptyString => ⟨s, false⟩
  | .unparsable => ⟨s, true⟩
  | .badPageSelections ids ts =>
      if now - ts > expiryTime then ⟨s, true⟩
      else ⟨{ s with selectedIds := ids.toFinset }, true⟩
  | .record d =>
      if now - d.timestamp > expiryTime then ⟨s, true⟩
      else
        ⟨{ s with
            selectedIds := d.selectedIds.toFinset
            pageSelections := d.pageSelections.map (fun e => (e.1, e.2.toFinset))
            totalSelected := d.totalSelected }, false⟩

/-- One mutating call on the `SelectionManager`. -/
inductive Op where
  | selectRow (page id : Int)
  | deselectRow (page id : Int)
  | selectAllOnPage (page : Int) (ids : List Int)
  | deselectAllOnPage (page : Int)
  | bulkSelect (startPage count : Int) (getPageData : Fetcher) (now : Int)
  | clearAllSelections

/-- Apply one call.  A `bulkSelect` whose guard throws leaves the state
unchanged (the caller observes the exception; no mutation happened). -/
def applyOp (s : SelectionManagerState) : Op → SelectionManagerState
  | .selectRow page id => selectRow page id s
  | .deselectRow page id => deselectRow page id s
  | .selectAllOnPage page ids => selectAllOnPage page ids s
  | .deselectAllOnPage page => deselectAllOnPage page s
  | .bulkSelect startPage count f now =>
      match bulkSelect f now startPage count s with
      | .error _ => s
      | .ok run => run.state
  | .clearAllSelections => clearAllSelections s

/-- Run a sequence of mutating calls. -/
def runOps (ops : List Op) (s : SelectionManagerState) : SelectionManagerState :=
  ops.foldl applyOp s

/-- The union over all pages `p` of `pageSelections[p]`. -/
def unionOfPages (s : SelectionManagerState) : Finset Int :=
  s.pageSelections.foldr (fun e acc => e.2 ∪ acc) ∅

/-- The spec's selection invariant:
`selectedIds == union over all pages p of pageSelections[p]`. -/
def UnionInv (s : SelectionManagerState) : Prop :=
  s.selectedIds = unionOfPages s

/-- The spec's count invariant: `totalSelected == |selectedIds|`. -/
def TotalInv (s : SelectionManagerState) : Prop :=
  s.totalSelected = (s.selectedIds.card : Int)

/-- No page entry has an empty id set. -/
def NoEmptyPages (s : SelectionManagerState) : Prop :=
  ∀ e ∈ s.pageSelections, e.2 ≠ ∅

/-- The page map has no duplicate page keys (true of every reachable
state; JavaScript `Map` keys are unique by construction). -/
def KeysNodup (s : SelectionManagerState) : Prop :=
  (s.pageSelections.map Prod.fst).Nodup

/-- Per-call usage discipline under which the union invariant is
preserved: `selectAllOnPage` must receive (at least) the page's current
selection; `deselectRow`'s id must not be selected on a different page;
`deselectAllOnPage`'s page must not share ids with another page;
`bulkSelect` must start past every page that already has selections. -/
def validCall (s : SelectionManagerState) : Op → Bool
  | .selectRow _ _ => true
  | .deselectRow page id =>
      s.pageSelections.all (fun e => !(decide (id ∈ e.2)) || decide (e.1 = page))
  | .selectAllOnPage page ids =>
      s.pageSelections.all (fun e => !(decide (e.1 = page)) || decide (e.2 ⊆ ids.toFinset))
  | .deselectAllOnPage page =>
      s.pageSelections.all (fun e =>
        decide (e.1 = page) || decide (Disjoint e.2 (getPageSelections page s)))
  | .bulkSelect startPage _ _ _ =>
      s.pageSelections.all (fun e => decide (e.1 < startPage))
  | .clearAllSelections => true

/-- A whole call sequence obeys the discipline, call by call. -/
def validOps (s : SelectionManagerState) : List Op → Bool
  | [] => true
  | op :: rest => validCall s op && validOps (applyOp s op) rest

/-! ## Map helper lemmas -/

theorem mapLookup_nil (k : Int) : mapLookup [] k = none := rfl

theorem mapLookup_cons (e : Int × Finset Int) (m : List (Int × Finset Int)) (k : Int) :
    mapLookup (e :: m) k = if e.1 = k then some e.2 else mapLookup m k := by
  by_cases h : e.1 = k <;> simp [mapLookup, List.find?_cons, h]

theorem mapErase_cons (e : Int × Finset Int) (m : List (Int × Finset Int)) (k : Int) :
    mapErase (e :: m) k = if e.1 = k then mapErase m k else e :: mapErase m k := by
  by_cases h : e.1 = k <;> simp [mapErase, List.filter_cons, h]

theorem mapLookup_erase_ne (m : List (Int × Finset Int)) {k k' : Int}
    (h : k' ≠ k) : mapLookup (mapErase m k) k' = mapLookup m k' := by
  induction m with
  | nil => rfl
  | cons e rest ih =>
      rw [mapErase_cons]
      by_cases he : e.1 = k
      · have he' : e.1 ≠ k' := by rw [he]; exact (Ne.symm h)
        rw [if_pos he, ih, mapLookup_cons, if_neg he']
      · rw [if_neg he, mapLookup_cons, mapLookup_cons, ih]

theorem mapLookup_erase_self (m : List (Int × Finset Int)) (k : Int) :
    mapLookup (mapErase m k) k = none := by
  induction m with
  | nil => rfl
  | cons e rest ih =>
      rw [mapErase_cons]
      by_cases he : e.1 = k
      · rw [if_pos he]; exact ih
      · rw [if_neg he, mapLookup_cons, if_neg he]; exact ih

theorem mapLookup_insert_self (m : List (Int × Finset Int)) (k : Int) (v : Finset Int) :
    mapLookup (mapInsert m k v) k = some v := by
  simp [mapInsert, mapLookup_cons]

theorem mapLookup_insert_ne (m : List (Int × Finset Int)) {k k' : Int} (v : Finset Int)
    (h : k' ≠ k) : mapLookup (mapInsert m k v) k' = mapLookup m k' := by
  rw [mapInsert, mapLookup_cons, if_neg (by simpa using Ne.symm h)]
  exact mapLookup_erase_ne m h

theorem mem_mapErase {m : List (Int × Finset Int)} {k : Int} {e : Int × Finset Int} :
    e ∈ mapErase m k ↔ e ∈ m ∧ e.1 ≠ k := by
  simp [mapErase, List.mem_filter]

theorem mem_mapInsert {m : List (Int × Finset Int)} {k : Int} {v : Finset Int}
    {e : Int × Finset Int} :
    e ∈ mapInsert m k v ↔ e = (k, v) ∨ (e ∈ m ∧ e.1 ≠ k) := by
  simp [mapInsert, mem_mapErase]

theorem mapLookup_eq_none_iff {m : List (Int × Finset Int)} {k : Int} :
    mapLookup m k = none ↔ ∀ e ∈ m, e.1 ≠ k := by
  simp only [mapLookup, Option.map_eq_none', List.find?_eq_none]
  constructor
  · intro h e he hk
    exact absurd (by simpa using hk) (by simpa using h e he)
  · intro h e he
    simpa using h e he

theorem mem_of_mapLookup_eq_some {m : List (Int × Finset Int)} {k : Int} {v : Finset Int}
    (h : mapLookup m k = some v) : (k, v) ∈ m := by
  simp only [mapLookup, Option.map_eq_some'] at h
  obtain ⟨e, he, hv⟩ := h
  have h1 := List.find?_some he
  have h2 := List.mem_of_find?_eq_some he
  have hk : e.1 = k := by simpa using h1
  have : e = (k, v) := by
    cases e
    simp_all
  rwa [this] at h2

theorem mapLookup_eq_some_of_nodup {m : List (Int × Finset Int)} {k : Int}
    {v : Finset Int} (hnd : (m.map Prod.fst).Nodup) (hmem : (k, v) ∈ m) :
    mapLookup m k = some v := by
  induction m with
  | nil => simp at hmem
  | cons e rest ih =>
      simp only [List.map_cons, List.nodup_cons] at hnd
      rcases List.mem_cons.mp hmem with h | h
      · subst h
        simp [mapLookup, List.find?_cons]
      · have hne : e.1 ≠ k := by
          intro hk
          exact hnd.1 (by simpa [hk] using List.mem_map_of_mem Prod.fst h)
        have := ih hnd.2 h
        simpa [mapLookup, List.find?_cons, hne] using this

theorem nodup_mapErase {m : List (Int × Finset Int)} (k : Int)
    (h : (m.map Prod.fst).Nodup) : ((mapErase m k).map Prod.fst).Nodup :=
  List.Nodup.sublist (List.Sublist.map Prod.fst (List.filter_sublist m)) h

theorem nodup_mapInsert {m : List (Int × Finset Int)} (k : Int) (v : Finset Int)
    (h : (m.map Prod.fst).Nodup) : ((mapInsert m k v).map Prod.fst).Nodup := by
  simp only [mapInsert, List.map_cons, List.nodup_cons]
  refine ⟨?_, nodup_mapErase k h⟩
  intro hk
  obtain ⟨e, he, hek⟩ := List.mem_map.mp hk
  exact (mem_mapErase.mp he).2 hek

/-! ## Selection-set helper lemmas -/

theorem foldl_insert_eq_union (ids : List Int) (acc : Finset Int) :
    ids.foldl (fun acc id => insert id acc) acc = acc ∪ ids.toFinset := by
  induction ids generalizing acc with
  | nil => simp
  | cons x rest ih =>
      simp only [List.foldl_cons, List.toFinset_cons, ih]
      ext y
      simp [or_comm, or_left_comm]

theorem selectAllOnPage_selectedIds (page : Int) (ids : List Int)
    (s : SelectionManagerState) :
    (selectAllOnPage page ids s).selectedIds = s.selectedIds ∪ ids.toFinset := by
  simp [selectAllOnPage, updateTotalSelected, foldl_insert_eq_union]

theorem mem_unionOfPages {s : SelectionManagerState} {x : Int} :
    x ∈ unionOfPages s ↔ ∃ e ∈ s.pageSelections, x ∈ e.2 := by
  unfold unionOfPages
  induction s.pageSelections with
  | nil => simp
  | cons e rest ih => simp [List.foldr_cons, ih]

/-! ## Preservation lemmas for single operations -/

theorem totalInv_updateTotalSelected (s : SelectionManagerState) :
    TotalInv (updateTotalSelected s) := rfl

theorem totalInv_selectRow (page id : Int) (s : SelectionManagerState) :
    TotalInv (selectRow page id s) := rfl

theorem totalInv_deselectRow (page id : Int) (s : SelectionManagerState) :
    TotalInv (deselectRow page id s) := by
  unfold deselectRow
  exact totalInv_updateTotalSelected _

theorem totalInv_selectAllOnPage (page : Int) (ids : List Int)
    (s : SelectionManagerState) : TotalInv (selectAllOnPage page ids s) := rfl

theorem totalInv_deselectAllOnPage (page : Int) (s : SelectionManagerState) :
    TotalInv (deselectAllOnPage page s) := by
  unfold deselectAllOnPage
  cases mapLookup s.pageSelections page <;> exact totalInv_updateTotalSelected _

theorem totalInv_clearAllSelections (s : SelectionManagerState) :
    TotalInv (clearAllSelections s) := by
  simp [TotalInv, clearAllSelections]

theorem keysNodup_selectRow (page id : Int) {s : SelectionManagerState}
    (h : KeysNodup s) : KeysNodup (selectRow page id s) :=
  nodup_mapInsert page _ h

theorem keysNodup_deselectRow (page id : Int) {s : SelectionManagerState}
    (h : KeysNodup s) : KeysNodup (deselectRow page id s) := by
  unfold deselectRow KeysNodup
  cases hl : mapLookup s.pageSelections page with
  | none => exact h
  | some pageSet =>
      by_cases hc : (pageSet.erase id).card = 0
      · simpa [hc] using nodup_mapErase page h
      · simpa [hc] using nodup_mapInsert page (pageSet.erase id) h

theorem keysNodup_selectAllOnPage (page : Int) (ids : List Int)
    {s : SelectionManagerState} (h : KeysNodup s) :
    KeysNodup (selectAllOnPage page ids s) :=
  nodup_mapInsert page _ h

theorem keysNodup_deselectAllOnPage (page : Int) {s : SelectionManagerState}
    (h : KeysNodup s) : KeysNodup (deselectAllOnPage page s) := by
  unfold deselectAllOnPage KeysNodup
  cases hl : mapLookup s.pageSelections page with
  | none => exact h
  | some pageSet => simpa using nodup_mapErase page h

theorem keysNodup_clearAllSelections (s : SelectionManagerState) :
    KeysNodup (clearAllSelections s) := by
  simp [KeysNodup, clearAllSelections]

theorem noEmptyPages_selectRow (page id : Int) {s : SelectionManagerState}
    (h : NoEmptyPages s) : NoEmptyPages (selectRow page id s) := by
  intro e he
  rcases mem_mapInsert.mp he with he' | ⟨he', _⟩
  · subst he'
    simp
  · exact h e he'

theorem noEmptyPages_deselectRow (page id : Int) {s : SelectionManagerState}
    (h : NoEmptyPages s) : NoEmptyPages (deselectRow page id s) := by
  unfold deselectRow
  intro e he
  simp only [updateTotalSelected] at he
  cases hl : mapLookup s.pageSelections page with
  | none =>
      rw [hl] at he
      exact h e he
  | some pageSet =>
      rw [hl] at he
      simp only at he
      by_cases hc : (pageSet.erase id).card = 0
      · rw [if_pos hc] at he
        exact h e (mem_mapErase.mp he).1
      · rw [if_neg hc] at he
        rcases mem_mapInsert.mp he with he' | ⟨he', _⟩
        · subst he'
          simpa using Finset.nonempty_iff_ne_empty.mp (Finset.card_ne_zero.mp hc)
        · exact h e he'

theorem noEmptyPages_selectAllOnPage (page : Int) {ids : List Int}
    {s : SelectionManagerState} (hids : ids ≠ [])
    (h : NoEmptyPages s) : NoEmptyPages (selectAllOnPage page ids s) := by
  intro e he
  rcases mem_mapInsert.mp he with he' | ⟨he', _⟩
  · subst he'
    simpa using hids
  · exact h e he'

theorem noEmptyPages_deselectAllOnPage (page : Int) {s : SelectionManagerState}
    (h : NoEmptyPages s) : NoEmptyPages (deselectAllOnPage page s) := by
  unfold deselectAllOnPage
  cases hl : mapLookup s.pageSelections page with
  | none => exact h
  | some pageSet =>
      intro e he
      exact h e (mem_mapErase.mp he).1

theorem noEmptyPages_clearAllSelections (s : SelectionManagerState) :
    NoEmptyPages (clearAllSelections s) := by
  intro e he
  simp [clearAllSelections] at he

/-! ## Bulk-loop induction lemmas -/

/-- Any per-page invariant preserved by `selectAllOnPage` on a non-empty id
list (the only mutation the loop performs) is preserved by the whole loop. -/
theorem bulkLoop_invariant (P : Int → SelectionManagerState → Prop)
    (hstep : ∀ pg ids s, ids ≠ [] → P pg s → P (pg + 1) (selectAllOnPage pg ids s)) :
    ∀ (remaining : Nat) (f : Fetcher) (pg : Int) (s : SelectionManagerState) (n : Nat),
      P pg s → ∃ pg', P pg' (bulkLoop f remaining pg s n).state := by
  intro remaining
  induction remaining using Nat.strong_induction_on with
  | _ remaining ih =>
    intro f pg s n hP
    unfold bulkLoop
    by_cases h0 : remaining = 0
    · rw [dif_pos h0]
      exact ⟨pg, hP⟩
    · rw [dif_neg h0]
      split
      · exact ⟨pg, hP⟩
      · rename_i pageIds hf
        by_cases hp : pageIds = []
        · rw [dif_pos hp]
          exact ⟨pg, hP⟩
        · rw [dif_neg hp]
          simp only
          have hlen : 0 < (pageIds.take remaining).length := by
            rw [List.length_take]
            exact lt_min (Nat.pos_of_ne_zero h0) (List.length_pos.mpr hp)
          have hne : pageIds.take remaining ≠ [] := List.ne_nil_of_length_pos hlen
          have hP' := hstep pg (pageIds.take remaining) s hne hP
          by_cases hceil : pg + 1 > 1000
          · rw [if_pos hceil]
            exact ⟨pg + 1, hP'⟩
          · rw [if_neg hceil]
            exact ih _ (by omega) f (pg + 1) _ (n + 1) hP'

/-- The loop performs at most `remaining` page fetches beyond the `n`
already counted: every non-breaking iteration selects at least one id. -/
theorem bulkLoop_fetches (f : Fetcher) :
    ∀ (remaining : Nat) (pg : Int) (s : SelectionManagerState) (n : Nat),
      (bulkLoop f remaining pg s n).fetches ≤ n + remaining := by
  intro remaining
  induction remaining using Nat.strong_induction_on with
  | _ remaining ih =>
    intro pg s n
    unfold bulkLoop
    by_cases h0 : remaining = 0
    · rw [dif_pos h0]
      simp
    · rw [dif_neg h0]
      have h1 : 0 < remaining := Nat.pos_of_ne_zero h0
      split
      · simp only
        omega
      · rename_i pageIds hf
        by_cases hp : pageIds = []
        · rw [dif_pos hp]
          simp only
          omega
        · rw [dif_neg hp]
          simp only
          have hlen : 0 < (pageIds.take remaining).length := by
            rw [List.length_take]
            exact lt_min h1 (List.length_pos.mpr hp)
          by_cases hceil : pg + 1 > 1000
          · rw [if_pos hceil]
            simp only
            omega
          · rw [if_neg hceil]
            have := ih (remaining - (pageIds.take remaining).length) (by omega)
              (pg + 1) (selectAllOnPage pg (pageIds.take remaining) s) (n + 1)
            omega

theorem unionInv_iff {s : SelectionManagerState} :
    UnionInv s ↔ ∀ x, (x ∈ s.selectedIds ↔ ∃ e ∈ s.pageSelections, x ∈ e.2) := by
  unfold UnionInv
  constructor
  · intro h x
    rw [h]
    exact mem_unionOfPages
  · intro h
    ext x
    rw [mem_unionOfPages]
    exact h x

theorem entry_eq_of_lookup {s : SelectionManagerState} {page : Int} {S0 : Finset Int}
    {e : Int × Finset Int} (h2 : KeysNodup s)
    (hl : mapLookup s.pageSelections page = some S0)
    (he : e ∈ s.pageSelections) (hk : e.1 = page) : e.2 = S0 := by
  have h := mapLookup_eq_some_of_nodup h2 (show (e.1, e.2) ∈ s.pageSelections by simpa using he)
  rw [hk, hl] at h
  exact (Option.some_injective _ h).symm

theorem unionInv_selectRow (page id : Int) {s : SelectionManagerState}
    (h1 : UnionInv s) (h2 : KeysNodup s) : UnionInv (selectRow page id s) := by
  have hU := unionInv_iff.mp h1
  rw [unionInv_iff]
  intro x
  show x ∈ insert id s.selectedIds ↔
    ∃ e ∈ mapInsert s.pageSelections page
        (insert id ((mapLookup s.pageSelections page).getD ∅)), x ∈ e.2
  cases hl : mapLookup s.pageSelections page with
  | none =>
      have hnone := mapLookup_eq_none_iff.mp hl
      simp only [Option.getD_none]
      constructor
      · intro hx
        rcases Finset.mem_insert.mp hx with hx | hx
        · exact ⟨(page, insert id ∅), mem_mapInsert.mpr (Or.inl rfl), by simp [hx]⟩
        · obtain ⟨e, he, hxe⟩ := (hU x).mp hx
          exact ⟨e, mem_mapInsert.mpr (Or.inr ⟨he, hnone e he⟩), hxe⟩
      · rintro ⟨e, he, hxe⟩
        rcases mem_mapInsert.mp he with he' | ⟨he', _⟩
        · subst he'
          simp only at hxe
          rcases Finset.mem_insert.mp hxe with hx | hx
        
          · exact Finset.mem_insert.mpr (Or.inl hx)
          · simp at hx
        · exact Finset.mem_insert.mpr (Or.inr ((hU x).mpr ⟨e, he', hxe⟩))
  | some S0 =>
      have hmem0 : (page, S0) ∈ s.pageSelections := mem_of_mapLookup_eq_some hl
      simp only [Option.getD_some]
      constructor
      · intro hx
        rcases Finset.mem_insert.mp hx with hx | hx
        · exact ⟨(page, insert id S0), mem_mapInsert.mpr (Or.inl rfl), by simp [hx]⟩
        · obtain ⟨e, he, hxe⟩ := (hU x).mp hx
          by_cases hk : e.1 = page
          · have := entry_eq_of_lookup h2 hl he hk
            exact ⟨(page, insert id S0), mem_mapInsert.mpr (Or.inl rfl),
              by simp only; exact Finset.mem_insert.mpr (Or.inr (this ▸ hxe))⟩
          · exact ⟨e, mem_mapInsert.mpr (Or.inr ⟨he, hk⟩), hxe⟩
      · rintro ⟨e, he, hxe⟩
        rcases mem_mapInsert.mp he with he' | ⟨he', _⟩
        · subst he'
          simp only at hxe
          rcases Finset.mem_insert.mp hxe with hx | hx
          · exact Finset.mem_insert.mpr (Or.inl hx)
          · exact Finset.mem_insert.mpr (Or.inr ((hU x).mpr ⟨(page, S0), hmem0, hx⟩))
        · exact Finset.mem_insert.mpr (Or.inr ((hU x).mpr ⟨e, he', hxe⟩))



theorem unionInv_selectAllOnPage (page : Int) (ids : List Int) {s : SelectionManagerState}
    (h1 : UnionInv s)
    (hpre : ∀ e ∈ s.pageSelections, e.1 = page → e.2 ⊆ ids.toFinset) :
    UnionInv (selectAllOnPage page ids s) := by
  have hU := unionInv_iff.mp h1
  rw [unionInv_iff]
  intro x
  rw [show (selectAllOnPage page ids s).selectedIds = s.selectedIds ∪ ids.toFinset from
    selectAllOnPage_selectedIds page ids s]
  show x ∈ s.selectedIds ∪ ids.toFinset ↔
    ∃ e ∈ mapInsert s.pageSelections page ids.toFinset, x ∈ e.2
  constructor
  · intro hx
    rcases Finset.mem_union.mp hx with hx | hx
    · obtain ⟨e, he, hxe⟩ := (hU x).mp hx
      by_cases hk : e.1 = page
      · exact ⟨(page, ids.toFinset), mem_mapInsert.mpr (Or.inl rfl), hpre e he hk hxe⟩
      · exact ⟨e, mem_mapInsert.mpr (Or.inr ⟨he, hk⟩), hxe⟩
    · exact ⟨(page, ids.toFinset), mem_mapInsert.mpr (Or.inl rfl), hx⟩
  · rintro ⟨e, he, hxe⟩
    rcases mem_mapInsert.mp he with he' | ⟨he', _⟩
    · subst he'
      exact Finset.mem_union.mpr (Or.inr hxe)
    · exact Finset.mem_union.mpr (Or.inl ((hU x).mpr ⟨e, he', hxe⟩))

theorem unionInv_deselectRow (page id : Int) {s : SelectionManagerState}
    (h1 : UnionInv s) (h2 : KeysNodup s)
    (hpre : ∀ e ∈ s.pageSelections, id ∈ e.2 → e.1 = page) :
    UnionInv (deselectRow page id s) := by
  have hU := unionInv_iff.mp h1
  rw [unionInv_iff]
  intro x
  unfold deselectRow
  cases hl : mapLookup s.pageSelections page with
  | none =>
      have hnone := mapLookup_eq_none_iff.mp hl
      simp only [updateTotalSelected]
      have hid : id ∉ s.selectedIds := by
        intro hid
        obtain ⟨e, he, hxe⟩ := (hU id).mp hid
        exact hnone e he (hpre e he hxe)
      rw [Finset.erase_eq_of_not_mem hid]
      exact hU x
  | some S0 =>
      have hmem0 : (page, S0) ∈ s.pageSelections := mem_of_mapLookup_eq_some hl
      simp only [updateTotalSelected]
      by_cases hc : (S0.erase id).card = 0
      · rw [if_pos hc]
        have hS0 : S0.erase id = ∅ := Finset.card_eq_zero.mp hc
        constructor
        · intro hx
          have hxid : x ≠ id := (Finset.mem_erase.mp hx).1
          obtain ⟨e, he, hxe⟩ := (hU x).mp (Finset.mem_erase.mp hx).2
          by_cases hk : e.1 = page
          · have := entry_eq_of_lookup h2 hl he hk
            rw [this] at hxe
            have : x ∈ S0.erase id := Finset.mem_erase.mpr ⟨hxid, hxe⟩
            rw [hS0] at this
            simp at this
          · exact ⟨e, mem_mapErase.mpr ⟨he, hk⟩, hxe⟩
        · rintro ⟨e, he, hxe⟩
          obtain ⟨he', hk⟩ := mem_mapErase.mp he
          refine Finset.mem_erase.mpr ⟨?_, (hU x).mpr ⟨e, he', hxe⟩⟩
          intro hxid
          subst hxid
          exact hk (hpre e he' hxe)
      · rw [if_neg hc]
        constructor
        · intro hx
          have hxid : x ≠ id := (Finset.mem_erase.mp hx).1
          obtain ⟨e, he, hxe⟩ := (hU x).mp (Finset.mem_erase.mp hx).2
          by_cases hk : e.1 = page
          · have := entry_eq_of_lookup h2 hl he hk
            rw [this] at hxe
            exact ⟨(page, S0.erase id), mem_mapInsert.mpr (Or.inl rfl),
              Finset.mem_erase.mpr ⟨hxid, hxe⟩⟩
          · exact ⟨e, mem_mapInsert.mpr (Or.inr ⟨he, hk⟩), hxe⟩
        · rintro ⟨e, he, hxe⟩
          rcases mem_mapInsert.mp he with he' | ⟨he', hk⟩
          · subst he'
            simp only at hxe
            obtain ⟨hxid, hxS⟩ := Finset.mem_erase.mp hxe
            exact Finset.mem_erase.mpr ⟨hxid, (hU x).mpr ⟨(page, S0), hmem0, hxS⟩⟩
          · refine Finset.mem_erase.mpr ⟨?_, (hU x).mpr ⟨e, he', hxe⟩⟩
            intro hxid
            subst hxid
            exact hk (hpre e he' hxe)

theorem unionInv_deselectAllOnPage (page : Int) {s : SelectionManagerState}
    (h1 : UnionInv s) (h2 : KeysNodup s)
    (hpre : ∀ e ∈ s.pageSelections, e.1 ≠ page →
      Disjoint e.2 (getPageSelections page s)) :
    UnionInv (deselectAllOnPage page s) := by
  have hU := unionInv_iff.mp h1
  rw [unionInv_iff]
  intro x
  unfold deselectAllOnPage
  cases hl : mapLookup s.pageSelections page with
  | none =>
      simp only [updateTotalSelected]
      exact hU x
  | some S0 =>
      have hmem0 : (page, S0) ∈ s.pageSelections := mem_of_mapLookup_eq_some hl
      have hget : getPageSelections page s = S0 := by
        unfold getPageSelections
        rw [hl]
        rfl
      simp only [updateTotalSelected]
      constructor
      · intro hx
        obtain ⟨hxsel, hxS0⟩ := Finset.mem_sdiff.mp hx
        obtain ⟨e, he, hxe⟩ := (hU x).mp hxsel
        by_cases hk : e.1 = page
        · have := entry_eq_of_lookup h2 hl he hk
          rw [this] at hxe
          exact absurd hxe hxS0
        · exact ⟨e, mem_mapErase.mpr ⟨he, hk⟩, hxe⟩
      · rintro ⟨e, he, hxe⟩
        obtain ⟨he', hk⟩ := mem_mapErase.mp he
        refine Finset.mem_sdiff.mpr ⟨(hU x).mpr ⟨e, he', hxe⟩, ?_⟩
        intro hxS0
        have hd := hpre e he' hk
        rw [hget] at hd
        exact (Finset.disjoint_left.mp hd) hxe hxS0

theorem unionInv_clearAllSelections (s : SelectionManagerState) :
    UnionInv (clearAllSelections s) := by
  rw [unionInv_iff]
  intro x
  simp [clearAllSelections]

/-- Combined structural invariant: the spec's union invariant plus
uniqueness of page keys. -/
def Inv (s : SelectionManagerState) : Prop := UnionInv s ∧ KeysNodup s

theorem inv_performBulkSelection (f : Fetcher) (now startPage count : Int)
    {s : SelectionManagerState} (h1 : UnionInv s) (h2 : KeysNodup s)
    (hpre : ∀ e ∈ s.pageSelections, e.1 < startPage) :
    UnionInv (performBulkSelection f now startPage count s).state ∧
      KeysNodup (performBulkSelection f now startPage count s).state := by
  have hstep : ∀ pg ids t, ids ≠ [] →
      (UnionInv t ∧ KeysNodup t ∧ ∀ e ∈ t.pageSelections, e.1 < pg) →
      (UnionInv (selectAllOnPage pg ids t) ∧ KeysNodup (selectAllOnPage pg ids t) ∧
        ∀ e ∈ (selectAllOnPage pg ids t).pageSelections, e.1 < pg + 1) := by
    rintro pg ids t hne ⟨hu, hn, hk⟩
    refine ⟨unionInv_selectAllOnPage pg ids hu ?_, keysNodup_selectAllOnPage pg ids hn, ?_⟩
    · intro e he hkpg
      have := hk e he
      omega
    · intro e he
      rcases mem_mapInsert.mp he with he' | ⟨he', _⟩
      · subst he'
        simp only
        omega
      · have := hk e he'
        omega
  obtain ⟨pg', hP⟩ := bulkLoop_invariant _ hstep count.toNat f startPage
    { s with lastBulkSelection := some ⟨count, startPage, now⟩ } 0 ⟨h1, h2, hpre⟩
  exact ⟨hP.1, hP.2.1⟩

theorem inv_applyOp {s : SelectionManagerState} {op : Op} (h : Inv s)
    (hv : validCall s op = true) : Inv (applyOp s op) := by
  obtain ⟨h1, h2⟩ := h
  cases op with
  | selectRow page id =>
      exact ⟨unionInv_selectRow page id h1 h2, keysNodup_selectRow page id h2⟩
  | deselectRow page id =>
      simp only [validCall, List.all_eq_true, Bool.or_eq_true, Bool.not_eq_true',
        decide_eq_true_eq, decide_eq_false_iff_not] at hv
      have hpre : ∀ e ∈ s.pageSelections, id ∈ e.2 → e.1 = page := by
        intro e he hi
        rcases hv e he with hni | hk
        · exact absurd hi hni
        · exact hk
      exact ⟨unionInv_deselectRow page id h1 h2 hpre, keysNodup_deselectRow page id h2⟩
  | selectAllOnPage page ids =>
      simp only [validCall, List.all_eq_true, Bool.or_eq_true, Bool.not_eq_true',
        decide_eq_true_eq, decide_eq_false_iff_not] at hv
      have hpre : ∀ e ∈ s.pageSelections, e.1 = page → e.2 ⊆ ids.toFinset := by
        intro e he hk
        rcases hv e he with hnk | hsub
        · exact absurd hk hnk
        · exact hsub
      exact ⟨unionInv_selectAllOnPage page ids h1 hpre,
        keysNodup_selectAllOnPage page ids h2⟩
  | deselectAllOnPage page =>
      simp only [validCall, List.all_eq_true, Bool.or_eq_true,
        decide_eq_true_eq] at hv
      have hpre : ∀ e ∈ s.pageSelections, e.1 ≠ page →
          Disjoint e.2 (getPageSelections page s) := by
        intro e he hk
        exact (hv e he).resolve_left hk
      exact ⟨unionInv_deselectAllOnPage page h1 h2 hpre,
        keysNodup_deselectAllOnPage page h2⟩
  | bulkSelect startPage count f now =>
      simp only [validCall, List.all_eq_true, decide_eq_true_eq] at hv
      show Inv (match bulkSelect f now startPage count s with
        | .error _ => s
        | .ok run => run.state)
      unfold bulkSelect
      by_cases hg : count ≤ 0 ∨ count > MAX_BULK_SELECTION
      · rw [if_pos hg]
        exact ⟨h1, h2⟩
      · rw [if_neg hg]
        exact inv_performBulkSelection f now startPage count h1 h2 hv
  | clearAllSelections =>
      exact ⟨unionInv_clearAllSelections s, keysNodup_clearAllSelections s⟩

theorem inv_runOps : ∀ (ops : List Op) (s : SelectionManagerState),
    Inv s → validOps s ops = true → Inv (runOps ops s) := by
  intro ops
  induction ops with
  | nil =>
      intro s h _
      exact h
  | cons op rest ih =>
      intro s h hv
      simp only [validOps, Bool.and_eq_true] at hv
      exact ih (applyOp s op) (inv_applyOp h hv.1) hv.2

theorem inv_initialState : Inv initialState := by
  constructor
  · rw [unionInv_iff]
    intro x
    simp [initialState]
  · simp [KeysNodup, initialState]

theorem totalInv_applyOp {s : SelectionManagerState} (op : Op) (h : TotalInv s) :
    TotalInv (applyOp s op) := by
  cases op with
  | selectRow page id => exact totalInv_selectRow page id s
  | deselectRow page id => exact totalInv_deselectRow page id s
  | selectAllOnPage page ids => exact totalInv_selectAllOnPage page ids s
  | deselectAllOnPage page => exact totalInv_deselectAllOnPage page s
  | bulkSelect startPage count f now =>
      show TotalInv (match bulkSelect f now startPage count s with
        | .error _ => s
        | .ok run => run.state)
      unfold bulkSelect
      by_cases hg : count ≤ 0 ∨ count > MAX_BULK_SELECTION
      · rw [if_pos hg]
        exact h
      · rw [if_neg hg]
        have hstep : ∀ pg ids t, ids ≠ [] → TotalInv t →
            TotalInv (selectAllOnPage pg ids t) :=
          fun pg ids t _ _ => totalInv_selectAllOnPage pg ids t
        have hT0 : TotalInv { s with lastBulkSelection := some ⟨count, startPage, now⟩ } := h
        obtain ⟨pg', hP⟩ := bulkLoop_invariant (fun _ t => TotalInv t)
          (fun pg ids t hne ht => hstep pg ids t hne ht) count.toNat f startPage _ 0 hT0
        exact hP
  | clearAllSelections => exact totalInv_clearAllSelections s

/-- Calls that never hand `selectAllOnPage` an empty id list. -/
def keepsPagesNonempty : Op → Bool
  | .selectAllOnPage _ ids => !ids.isEmpty
  | _ => true

theorem noEmptyPages_applyOp {s : SelectionManagerState} (op : Op)
    (h : NoEmptyPages s) (hv : keepsPagesNonempty op = true) :
    NoEmptyPages (applyOp s op) := by
  cases op with
  | selectRow page id => exact noEmptyPages_selectRow page id h
  | deselectRow page id => exact noEmptyPages_deselectRow page id h
  | selectAllOnPage page ids =>
      have hids : ids ≠ [] := by
        simpa [keepsPagesNonempty] using hv
      exact noEmptyPages_selectAllOnPage page hids h
  | deselectAllOnPage page => exact noEmptyPages_deselectAllOnPage page h
  | bulkSelect startPage count f now =>
      show NoEmptyPages (match bulkSelect f now startPage count s with
        | .error _ => s
        | .ok run => run.state)
      unfold bulkSelect
      by_cases hg : count ≤ 0 ∨ count > MAX_BULK_SELECTION
      · rw [if_pos hg]
        exact h
      · rw [if_neg hg]
        have hstep : ∀ pg ids t, ids ≠ [] → NoEmptyPages t →
            NoEmptyPages (selectAllOnPage pg ids t) :=
          fun pg ids t hne ht => noEmptyPages_selectAllOnPage pg hne ht
        obtain ⟨pg', hP⟩ := bulkLoop_invariant (fun _ t => NoEmptyPages t)
          (fun pg ids t hne ht => hstep pg ids t hne ht) count.toNat f startPage
          { s with lastBulkSelection := some ⟨count, startPage, now⟩ } 0 h
        exact hP
  | clearAllSelections => exact noEmptyPages_clearAllSelections s

theorem noEmptyPages_runOps : ∀ (ops : List Op) (s : SelectionManagerState),
    NoEmptyPages s → ops.all keepsPagesNonempty = true →
    NoEmptyPages (runOps ops s) := by
  intro ops
  induction ops with
  | nil =>
      intro s h _
      exact h
  | cons op rest ih =>
      intro s h hv
      simp only [List.all_cons, Bool.and_eq_true] at hv
      exact ih (applyOp s op) (noEmptyPages_applyOp op h hv.1) hv.2

theorem totalInv_runOps : ∀ (ops : List Op) (s : SelectionManagerState),
    TotalInv s → TotalInv (runOps ops s) := by
  intro ops
  induction ops with
  | nil =>
      intro s h
      exact h
  | cons op rest ih =>
      intro s h
      exact ih (applyOp s op) (totalInv_applyOp op h)

theorem totalInv_initialState : TotalInv initialState := by
  simp [TotalInv, initialState]

theorem noEmptyPages_initialState : NoEmptyPages initialState := by
  intro e he
  simp [initialState] at he

/-- Serializing the page map to id arrays and reading it back is the
identity (`parseInt ∘ toString` is the identity on integer keys and
`new Set ∘ Array.from` the identity on id sets). -/
theorem pageSelections_roundtrip (m : List (Int × Finset Int)) :
    (m.map (fun e => (e.1, e.2.sort (· ≤ ·)))).map (fun e => (e.1, e.2.toFinset)) = m := by
  induction m with
  | nil => rfl
  | cons e rest ih => simp [ih, Finset.sort_toFinset]

/-- C1 (counterexample): the claimed invariant
`selectedIds == union over all pages of pageSelections[p]` fails after the
sequence `selectRow(1, 5); selectAllOnPage(1, [7])` from the empty state:
`selectedIds = {5, 7}` but the union of all page sets is `{7}`. -/
theorem C1_counterexample :
    ¬ UnionInv (runOps [Op.selectRow 1 5, Op.selectAllOnPage 1 [7]] initialState) := by
  unfold UnionInv
  decide

/-- C1 (amended): `selectedIds` equals the union of all page selections
after every sequence of mutating calls that obeys the per-call discipline
`validOps`: `selectRow` and `clearAllSelections` unrestricted;
`selectAllOnPage(p, ids)` given a superset of page `p`'s current selection;
`deselectRow(p, id)` only when `id` is selected on no other page;
`deselectAllOnPage(p)` only when page `p`'s ids are on no other page;
`bulkSelect(startPage, …)` only when every existing page entry has page
number below `startPage`. -/
theorem C1_union_invariant_disciplined (ops : List Op)
    (h : validOps initialState ops = true) :
    (runOps ops initialState).selectedIds = unionOfPages (runOps ops initialState) :=
  (inv_runOps ops initialState inv_initialState h).1

/-- Witness for C1 (amended) at a concrete disciplined call sequence. -/
theorem C1_union_invariant_disciplined_witness :
    validOps initialState
        [Op.selectRow 1 5, Op.selectRow 1 6, Op.deselectRow 1 5,
         Op.selectAllOnPage 1 [6, 7], Op.selectRow 2 9,
         Op.deselectAllOnPage 2, Op.clearAllSelections] = true
    ∧ (runOps [Op.selectRow 1 5, Op.selectRow 1 6, Op.deselectRow 1 5,
         Op.selectAllOnPage 1 [6, 7], Op.selectRow 2 9,
         Op.deselectAllOnPage 2, Op.clearAllSelections] initialState).selectedIds
      = unionOfPages (runOps [Op.selectRow 1 5, Op.selectRow 1 6, Op.deselectRow 1 5,
         Op.selectAllOnPage 1 [6, 7], Op.selectRow 2 9,
         Op.deselectAllOnPage 2, Op.clearAllSelections] initialState) :=
  ⟨by decide, C1_union_invariant_disciplined _ (by decide)⟩

/-- C3 (counterexample): after `selectRow(1, 5); selectAllOnPage(1, [7])`
the page map is exactly `{1 ↦ {7}}` — id `5` is selected on no page — yet
`5` is still in `selectedIds`, contradicting the claim that an omitted id
is removed from `selectedIds` unless selected on another page. -/
theorem C3_counterexample :
    (runOps [Op.selectRow 1 5, Op.selectAllOnPage 1 [7]] initialState).pageSelections
        = [(1, ({7} : Finset Int))]
    ∧ 5 ∈ (runOps [Op.selectRow 1 5, Op.selectAllOnPage 1 [7]] initialState).selectedIds := by
  decide

/-- C3 (amended): `selectAllOnPage(p, ids)` with a list omitting a
previously-selected id removes that id from `pageSelections[p]` but leaves
it in `selectedIds` unconditionally — whether or not it is selected on
another page; global membership is not recomputed from the page union. -/
theorem C3_selectAllOnPage_drops_page_only (page : Int) (ids : List Int) (id : Int)
    (s : SelectionManagerState) (h1 : id ∈ getPageSelections page s)
    (h2 : id ∉ ids) (h3 : id ∈ s.selectedIds) :
    id ∉ getPageSelections page (selectAllOnPage page ids s)
    ∧ id ∈ (selectAllOnPage page ids s).selectedIds := by
  constructor
  · show id ∉ (mapLookup (mapInsert s.pageSelections page ids.toFinset) page).getD ∅
    rw [mapLookup_insert_self]
    simpa using h2
  · rw [selectAllOnPage_selectedIds]
    exact Finset.mem_union.mpr (Or.inl h3)

/-- Witness for C3 (amended): id `5` selected on page 1, then
`selectAllOnPage(1, [7])`. -/
theorem C3_selectAllOnPage_drops_page_only_witness :
    5 ∉ getPageSelections 1 (selectAllOnPage 1 [7] (runOps [Op.selectRow 1 5] initialState))
    ∧ 5 ∈ (selectAllOnPage 1 [7] (runOps [Op.selectRow 1 5] initialState)).selectedIds :=
  C3_selectAllOnPage_drops_page_only 1 [7] 5 (runOps [Op.selectRow 1 5] initialState)
    (by decide) (by decide) (by decide)

/-- C8 (counterexample): `selectAllOnPage(3, [])` installs an entry for
page 3 whose id set is empty — a dangling empty page entry. -/
theorem C8_counterexample :
    mapLookup (runOps [Op.selectAllOnPage 3 []] initialState).pageSelections 3
      = some (∅ : Finset Int) := by
  decide

/-- C8 (amended): as long as `selectAllOnPage` is never called with an
empty id list (the bulk loop never does), no page entry ever holds an
empty id set: `deselectRow` deletes a page entry that becomes empty and
`deselectAllOnPage` deletes the whole entry. -/
theorem C8_no_empty_page_entries (ops : List Op)
    (h : ops.all keepsPagesNonempty = true) :
    ∀ e ∈ (runOps ops initialState).pageSelections, e.2 ≠ ∅ :=
  noEmptyPages_runOps ops initialState noEmptyPages_initialState h

/-- Witness for C8 (amended): select all of page 3 then deselect all of
page 3 (plus single-row churn) leaves no empty entry. -/
theorem C8_no_empty_page_entries_witness :
    [Op.selectAllOnPage 3 [1, 2], Op.deselectAllOnPage 3,
      Op.selectRow 1 4, Op.deselectRow 1 4].all keepsPagesNonempty = true
    ∧ ∀ e ∈ (runOps [Op.selectAllOnPage 3 [1, 2], Op.deselectAllOnPage 3,
        Op.selectRow 1 4, Op.deselectRow 1 4] initialState).pageSelections, e.2 ≠ ∅ :=
  ⟨by decide, C8_no_empty_page_entries _ (by decide)⟩

/-- C5: after every sequence of mutating calls from the empty state,
`getTotalSelected` returns exactly the cardinality of `selectedIds` —
every mutation recomputes it via `updateTotalSelected`. -/
theorem C5_totalSelected_eq_card (ops : List Op) :
    getTotalSelected (runOps ops initialState)
      = ((runOps ops initialState).selectedIds.card : Int) :=
  totalInv_runOps ops initialState totalInv_initialState

/-- C4: `bulkSelect` with `count <= 0 || count > 1000` (for an integer
count, exactly: not in `1..1000`) throws the `Invalid bulk selection
count` error synchronously: no state field changes (the error is raised
before `lastBulkSelection` is written) and no page is fetched (the fetch
loop is never entered). -/
theorem C4_bulk_invalid_count (f : Fetcher) (now startPage count : Int)
    (s : SelectionManagerState) (h : count ≤ 0 ∨ count > MAX_BULK_SELECTION) :
    bulkSelect f now startPage count s
        = Except.error ("Invalid bulk selection count: " ++ toString count)
    ∧ applyOp s (Op.bulkSelect startPage count f now) = s := by
  have he : bulkSelect f now startPage count s
      = Except.error ("Invalid bulk selection count: " ++ toString count) := by
    unfold bulkSelect
    rw [if_pos h]
  refine ⟨he, ?_⟩
  show (match bulkSelect f now startPage count s with
    | .error _ => s
    | .ok run => run.state) = s
  rw [he]

/-- Witness for C4 at `count = 0` and `count = 1001`. -/
theorem C4_bulk_invalid_count_witness :
    (bulkSelect (fun _ => FetchResult.ok []) 0 1 0 initialState
        = Except.error ("Invalid bulk selection count: " ++ toString (0 : Int))
      ∧ applyOp initialState (Op.bulkSelect 1 0 (fun _ => FetchResult.ok []) 0)
        = initialState)
    ∧ (bulkSelect (fun _ => FetchResult.ok []) 0 1 1001 initialState
        = Except.error ("Invalid bulk selection count: " ++ toString (1001 : Int))
      ∧ applyOp initialState (Op.bulkSelect 1 1001 (fun _ => FetchResult.ok []) 0)
        = initialState) :=
  ⟨C4_bulk_invalid_count (fun _ => FetchResult.ok []) 0 1 0 initialState (by decide),
   C4_bulk_invalid_count (fun _ => FetchResult.ok []) 0 1 1001 initialState (by decide)⟩

/-- C10: if an id is selected on two distinct pages, `deselectRow(p1, id)`
removes it from the global `selectedIds` (so `isRowSelected` is false)
while the id remains in `pageSelections[p2]`. -/
theorem C10_cross_page_deselect (s : SelectionManagerState) (p1 p2 id : Int)
    (hne : p1 ≠ p2) (h1 : id ∈ getPageSelections p1 s)
    (h2 : id ∈ getPageSelections p2 s) :
    isRowSelected id (deselectRow p1 id s) = false
    ∧ id ∈ getPageSelections p2 (deselectRow p1 id s) := by
  constructor
  · show decide (id ∈ (deselectRow p1 id s).selectedIds) = false
    have : (deselectRow p1 id s).selectedIds = s.selectedIds.erase id := by
      unfold deselectRow
      cases mapLookup s.pageSelections p1 <;> rfl
    rw [this]
    simp
  · unfold getPageSelections at h2 ⊢
    unfold deselectRow
    cases hl : mapLookup s.pageSelections p1 with
    | none =>
        simpa using h2
    | some pageSet =>
        simp only [updateTotalSelected]
        by_cases hc : (pageSet.erase id).card = 0
        · rw [if_pos hc]
          show id ∈ (mapLookup (mapErase s.pageSelections p1) p2).getD ∅
          rw [mapLookup_erase_ne _ (Ne.symm hne)]
          exact h2
        · rw [if_neg hc]
          show id ∈ (mapLookup (mapInsert s.pageSelections p1 (pageSet.erase id)) p2).getD ∅
          rw [mapLookup_insert_ne _ _ (Ne.symm hne)]
          exact h2

/-- Witness for C10: id `7` selected on pages 1 and 2, deselected via
page 1. -/
theorem C10_cross_page_deselect_witness :
    isRowSelected 7 (deselectRow 1 7 (runOps [Op.selectRow 1 7, Op.selectRow 2 7] initialState)) = false
    ∧ 7 ∈ getPageSelections 2
        (deselectRow 1 7 (runOps [Op.selectRow 1 7, Op.selectRow 2 7] initialState)) :=
  C10_cross_page_deselect (runOps [Op.selectRow 1 7, Op.selectRow 2 7] initialState)
    1 2 7 (by decide) (by decide) (by decide)

/-- Ids already selected are never removed by the bulk loop: the loop's
only mutation is `selectAllOnPage`, which only adds to `selectedIds`. -/
theorem bulkLoop_selected_monotone (f : Fetcher) (r : Nat) (pg : Int)
    (t : SelectionManagerState) (n : Nat) {X : Finset Int}
    (h : X ⊆ t.selectedIds) : X ⊆ (bulkLoop f r pg t n).state.selectedIds := by
  obtain ⟨pg', hP⟩ := bulkLoop_invariant (fun _ u => X ⊆ u.selectedIds)
    (fun pg ids u _ hu => by
      show X ⊆ (selectAllOnPage pg ids u).selectedIds
      rw [selectAllOnPage_selectedIds]
      exact le_trans hu Finset.subset_union_left) r f pg t n h
  exact hP

/-- C2 (counterexample): with a fetcher whose every page fetch fails and a
valid count, `bulkSelect` returns successfully (`Except.ok`, i.e. the
promise resolves) — the caught fetch error (`caughtError = true`) is only
logged, never propagated to the caller, contradicting the claim that the
returned promise rejects. -/
theorem C2_counterexample :
    bulkSelect (fun _ => FetchResult.err) 0 1 5 initialState
      = Except.ok ⟨{ initialState with lastBulkSelection := some ⟨5, 1, 0⟩ }, 1, true⟩ := by
  rw [show bulkSelect (fun _ => FetchResult.err) 0 1 5 initialState
      = Except.ok (performBulkSelection (fun _ => FetchResult.err) 0 1 5 initialState) by
    unfold bulkSelect
    rw [if_neg (by decide)]]
  unfold performBulkSelection
  unfold bulkLoop
  rfl

/-- C2 (amended): when a page fetch fails during a bulk selection, the
loop stops at that page with the state as accumulated so far (prior pages'
selections retained) and the error is caught and only logged — `bulkSelect`
still resolves (`Except.ok`); the error does not propagate to the caller. -/
theorem C2_fetch_error_caught_not_propagated (f : Fetcher) (now startPage count : Int)
    (s t : SelectionManagerState) (r n : Nat) (pg : Int) :
    (1 ≤ count → count ≤ MAX_BULK_SELECTION →
      (bulkSelect f now startPage count s).isOk = true
        ∧ s.selectedIds ⊆ (performBulkSelection f now startPage count s).state.selectedIds)
    ∧ (f pg = FetchResult.err → r ≠ 0 → bulkLoop f r pg t n = ⟨t, n + 1, true⟩) := by
  constructor
  · intro h1 h2
    constructor
    · unfold bulkSelect
      rw [if_neg (by omega)]
      rfl
    · unfold performBulkSelection
      exact bulkLoop_selected_monotone f count.toNat startPage _ 0 (le_refl _)
  · intro hf hr
    unfold bulkLoop
    rw [dif_neg hr, hf]

/-- Witness for C2 (amended) at a concrete failing fetcher. -/
theorem C2_fetch_error_caught_not_propagated_witness :
    ((bulkSelect (fun _ => FetchResult.err) 0 1 5 initialState).isOk = true
      ∧ initialState.selectedIds
        ⊆ (performBulkSelection (fun _ => FetchResult.err) 0 1 5 initialState).state.selectedIds)
    ∧ bulkLoop (fun _ => FetchResult.err) 3 2 initialState 0 = ⟨initialState, 1, true⟩ := by
  have h := C2_fetch_error_caught_not_propagated (fun _ => FetchResult.err) 0 1 5
    initialState initialState 3 0 2
  exact ⟨h.1 (by decide) (by decide), h.2 rfl (by decide)⟩

/-- C9: for every valid count and every fetcher — even one returning
non-empty pages forever — `bulkSelect` is a total function that resolves,
performs at most `count` page fetches (each non-breaking iteration selects
at least one id, and the `currentPage > 1000` ceiling plus empty-page and
error breaks can only stop it sooner), and everything selected before the
loop stops remains selected. -/
theorem C9_bulk_terminates (f : Fetcher) (now startPage count : Int)
    (s : SelectionManagerState) (h1 : 1 ≤ count) (h2 : count ≤ MAX_BULK_SELECTION) :
    bulkSelect f now startPage count s
        = Except.ok (performBulkSelection f now startPage count s)
    ∧ (performBulkSelection f now startPage count s).fetches ≤ count.toNat
    ∧ s.selectedIds ⊆ (performBulkSelection f now startPage count s).state.selectedIds := by
  refine ⟨?_, ?_, ?_⟩
  · unfold bulkSelect
    rw [if_neg (by omega)]
  · unfold performBulkSelection
    simpa using bulkLoop_fetches f count.toNat startPage
      { s with lastBulkSelection := some ⟨count, startPage, now⟩ } 0
  · unfold performBulkSelection
    exact bulkLoop_selected_monotone f count.toNat startPage _ 0 (le_refl _)

/-- Witness for C9 with an unbounded fetcher that always returns a
non-empty page. -/
theorem C9_bulk_terminates_witness :
    bulkSelect (fun _ => FetchResult.ok [1, 2]) 0 1 3 initialState
        = Except.ok (performBulkSelection (fun _ => FetchResult.ok [1, 2]) 0 1 3 initialState)
    ∧ (performBulkSelection (fun _ => FetchResult.ok [1, 2]) 0 1 3 initialState).fetches
        ≤ (3 : Int).toNat
    ∧ initialState.selectedIds
        ⊆ (performBulkSelection (fun _ => FetchResult.ok [1, 2]) 0 1 3 initialState).state.selectedIds :=
  C9_bulk_terminates (fun _ => FetchResult.ok [1, 2]) 0 1 3 initialState
    (by decide) (by decide)

/-- C6 (counterexample): a reachable state carrying `lastBulkSelection`
metadata (produced by a successful one-page bulk selection) does not
round-trip: `StoredSelectionData` has no `lastBulkSelection` field, so the
loaded state differs from the saved one. -/
theorem C6_counterexample :
    (loadFromStorage initialState
        (StoredContent.record
          (saveData (performBulkSelection (fun _ => FetchResult.ok [1]) 0 1 1 initialState).state 0))
        0).state
      ≠ (performBulkSelection (fun _ => FetchResult.ok [1]) 0 1 1 initialState).state := by
  have hbulk : (performBulkSelection (fun _ => FetchResult.ok [1]) 0 1 1 initialState).state
      = { selectedIds := {1}, pageSelections := [(1, {1})], totalSelected := 1,
          lastBulkSelection := some ⟨1, 1, 0⟩ } := by
    simp [performBulkSelection, bulkLoop, selectAllOnPage, updateTotalSelected, initialState,
      mapInsert, mapErase]
  intro hEq
  have hlast := congrArg SelectionManagerState.lastBulkSelection hEq
  have hL : (loadFromStorage initialState
      (StoredContent.record
        (saveData (performBulkSelection (fun _ => FetchResult.ok [1]) 0 1 1 initialState).state 0))
      0).state.lastBulkSelection = none := by
    simp only [loadFromStorage]
    rw [if_neg (by decide)]
    rfl
  rw [hL, hbulk] at hlast
  simp at hlast

/-- C6 (amended): for every state and a load within the expiry window,
saving then loading restores `selectedIds`, every page's selections and
`totalSelected` exactly, but resets `lastBulkSelection` to `none`: the
bulk metadata is not part of `StoredSelectionData` and is never persisted. -/
theorem C6_roundtrip_without_bulk_meta (s : SelectionManagerState) (tSave tLoad : Int)
    (h : ¬ (tLoad - tSave > expiryTime)) :
    (loadFromStorage initialState (StoredContent.record (saveData s tSave)) tLoad).state
      = { s with lastBulkSelection := none } := by
  simp only [loadFromStorage]
  rw [if_neg (by simpa [saveData] using h)]
  cases s with
  | mk sel ps tot last =>
      apply SelectionManagerState.ext
      · exact Finset.sort_toFinset _ sel
      · exact pageSelections_roundtrip ps
      · rfl
      · rfl

/-- Witness for C6 (amended) at a concrete state and times. -/
theorem C6_roundtrip_without_bulk_meta_witness :
    (loadFromStorage initialState
        (StoredContent.record
          (saveData (SelectionManagerState.mk {3, 4} [(2, {3, 4})] 2 (some ⟨2, 2, 5⟩)) 10))
        20).state
      = { SelectionManagerState.mk {3, 4} [(2, {3, 4})] 2 (some ⟨2, 2, 5⟩) with
          lastBulkSelection := none } :=
  C6_roundtrip_without_bulk_meta
    (SelectionManagerState.mk {3, 4} [(2, {3, 4})] 2 (some ⟨2, 2, 5⟩)) 10 20 (by decide)

/-- C7 (counterexample): the stored string
`{"timestamp": 0, "selectedIds": [1, 2], "pageSelections": null}` parses
but is not a valid `StoredSelectionData`; loading it at time 0 does not
leave the empty default state — `selectedIds` has already been assigned
`{1, 2}` when `Object.entries(null)` throws. -/
theorem C7_counterexample :
    (loadFromStorage initialState (StoredContent.badPageSelections [1, 2] 0) 0).state
      ≠ initialState := by
  decide

/-- C7 (amended): startup never fails on corrupt storage, but the details
differ from the claim: a non-empty string on which `JSON.parse` throws
leaves the empty default state and removes the entry; an empty-string
entry is treated as absent by the falsy check and is not removed; a
record that parses but fails validation mid-restore is removed, yet the
fields assigned before the failure (here `selectedIds`) keep their parsed
values instead of the empty default. -/
theorem C7_corrupt_storage (ids : List Int) (ts now : Int) :
    loadFromStorage initialState StoredContent.unparsable now = ⟨initialState, true⟩
    ∧ loadFromStorage initialState StoredContent.emptyString now = ⟨initialState, false⟩
    ∧ (¬ (now - ts > expiryTime) →
        loadFromStorage initialState (StoredContent.badPageSelections ids ts) now
          = ⟨{ initialState with selectedIds := ids.toFinset }, true⟩) := by
  refine ⟨rfl, rfl, ?_⟩
  intro h
  simp only [loadFromStorage]
  rw [if_neg h]

/-- Witness for C7 (amended) at concrete corrupt contents. -/
theorem C7_corrupt_storage_witness :
    loadFromStorage initialState StoredContent.unparsable 0 = ⟨initialState, true⟩
    ∧ loadFromStorage initialState StoredContent.emptyString 0 = ⟨initialState, false⟩
    ∧ loadFromStorage initialState (StoredContent.badPageSelections [1, 2] 0) 0
        = ⟨{ initialState with selectedIds := ([1, 2] : List Int).toFinset }, true⟩ := by
  have h := C7_corrupt_storage [1, 2] 0 0
  exact ⟨h.1, h.2.1, h.2.2 (by decide)⟩

end ArtworkSelection
